import Mathlib

/-!
Shallow embedding of the text-layout reconstruction and dwell-time
aggregation pipeline of `mouse_viz.py` (functions `get_word_positions`,
`get_mouse_data`, `compute_word_durations`), together with theorems
settling the specification claims about it.

Modelling conventions:
* Python numbers appearing in the pointer stream (coordinates,
  timestamps, accumulated durations) are modelled as `ℚ`.
* Pixel positions produced by the layout code are integers (`ℤ`):
  paddings are integer constants and the font width measurement
  (`bbox[2] - bbox[0]` of `PIL`'s `getbbox`) is integral.
* A font object is modelled by its width-measurement function
  `String → ℤ` (the width `bbox[2] - bbox[0]` of `font.getbbox`).
* A pandas `DataFrame` of reading trials is modelled as the list of its
  rows; `compute_word_durations` only ever reads the
  `mouse_tracking_data` column, so a row carries just that field.
* Python exceptions are modelled with `Except String` / `Option`:
  `ValueError` messages are carried verbatim, a failing `.iloc` lookup
  becomes the error string `"IndexError"`, and a failing dict lookup
  becomes `"KeyError"`.
* Python `round(x, n)` (round half to even at `n` decimal digits) is
  modelled exactly on `ℚ` by `pyRound`.
-/

namespace MouseViz

/-- Module constant `FONT_SIZE = 18` of `mouse_viz.py`. -/
def FONT_SIZE : ℤ := 18

/-- Module constant `LINE_HEIGHT = 25` of `mouse_viz.py`. -/
def LINE_HEIGHT : ℤ := 25

/-- Module constant `HORIZONTAL_PADDING = 30` of `mouse_viz.py`. -/
def HORIZONTAL_PADDING : ℤ := 30

/-- Module constant `VERTICAL_PADDING_TOP = 20` of `mouse_viz.py`. -/
def VERTICAL_PADDING_TOP : ℤ := 20

/-- One sample of the mouse-tracking stream: a dict with keys
`x`, `y`, `timestamp`. -/
structure PointerSample where
  x : ℚ
  y : ℚ
  timestamp : ℚ
deriving DecidableEq

/-- One word-position dict produced by `get_word_positions`, with keys
`word`, `word_index`, `x_start`, `x_end`, `y_position`, `line_index`. -/
structure WordPos where
  word : String
  word_index : ℕ
  x_start : ℤ
  x_end : ℤ
  y_position : ℤ
  line_index : ℕ
deriving DecidableEq

/-- One row of the DataFrame returned by `compute_word_durations`, with
columns `word_number`, `word`, `duration_ms`, `x_start`, `x_end`,
`y_position`, `line_number`. -/
structure DurationRecord where
  word_number : ℕ
  word : String
  duration_ms : ℚ
  x_start : ℤ
  x_end : ℤ
  y_position : ℤ
  line_number : ℕ
deriving DecidableEq

/-- A row of the reading-trials DataFrame, restricted to the only column
`compute_word_durations` reads: `mouse_tracking_data`. -/
structure TrialRow where
  mouse_tracking_data : List PointerSample
deriving DecidableEq

/-- Python `round` to the nearest integer: round half to even. -/
def pyRoundInt (q : ℚ) : ℤ :=
  let f := q.floor
  let r := q - f
  if r < 1 / 2 then f
  else if 1 / 2 < r then f + 1
  else if f % 2 = 0 then f else f + 1

/-- Python `round(q, ndigits)` on exact rationals. -/
def pyRound (q : ℚ) (ndigits : ℕ) : ℚ :=
  (pyRoundInt (q * (10 ^ ndigits)) : ℚ) / (10 ^ ndigits)

/-- Python `str.split(' ')` on the character list: split at every single
space, preserving empty tokens (so `''` yields `[[]]`). -/
def splitCharsOnSpace : List Char → List (List Char)
  | [] => [[]]
  | c :: cs =>
    if c = ' ' then [] :: splitCharsOnSpace cs
    else
      match splitCharsOnSpace cs with
      | [] => [[c]]
      | t :: ts => (c :: t) :: ts

/-- Python `text.split(' ')`. -/
def pySplitSpace (s : String) : List String :=
  (splitCharsOnSpace s.data).map (fun l => ⟨l⟩)

/-- The per-word loop state of `get_word_positions`: the variables
`current_line_text`, `current_x` and `line_index`. -/
structure LineState where
  current_line_text : String
  current_x : ℤ
  line_index : ℕ
deriving DecidableEq

/-- One iteration of the `for word in words` loop of
`get_word_positions`, up to the point where the box is appended: the
line-break test and the updates of `current_line_text`, `current_x` and
`line_index` (the later `current_x += word_width` advance is applied by
`layoutLoop`). -/
def layoutStep (canvas_width : ℤ) (font : String → ℤ)
    (horizontal_padding : ℤ) (st : LineState) (word : String) : LineState :=
  let text_start_x := Int.fdiv horizontal_padding 2
  let available_width := canvas_width - horizontal_padding
  let test_line :=
    if st.current_line_text = "" then word
    else st.current_line_text ++ " " ++ word
  if font test_line > available_width ∧ st.current_line_text ≠ "" then
    ⟨word, text_start_x, st.line_index + 1⟩
  else
    ⟨test_line,
     if st.current_line_text ≠ "" then
       text_start_x + font (st.current_line_text ++ " ")
     else st.current_x,
     st.line_index⟩

/-- The end-of-iteration cursor advance `current_x += word_width`. -/
def layoutAdvance (font : String → ℤ) (st : LineState) (word : String) :
    LineState :=
  ⟨st.current_line_text, st.current_x + font word, st.line_index⟩

/-- The `for word in words` loop of `get_word_positions`.  `idx` is
`len(word_positions)` at loop entry, so it is the `word_index` of the
next box to be appended.  Note that the source computes `y_position`
from the module constant `LINE_HEIGHT`, not from the `line_height`
parameter, which is why no line-height argument appears here. -/
def layoutLoop (canvas_width : ℤ) (font : String → ℤ)
    (horizontal_padding : ℤ) (text_start_y : ℤ) :
    List String → LineState → ℕ → List WordPos
  | [], _, _ => []
  | word :: rest, st, idx =>
    let st' := layoutStep canvas_width font horizontal_padding st word
    { word := word
      word_index := idx
      x_start := st'.current_x
      x_end := st'.current_x + font word
      y_position := text_start_y + (st'.line_index : ℤ) * LINE_HEIGHT
      line_index := st'.line_index }
      :: layoutLoop canvas_width font horizontal_padding text_start_y rest
        (layoutAdvance font st' word) (idx + 1)

/-- `get_word_positions(text, canvas_width, font, horizontal_padding,
vertical_padding_top, line_height)` of `mouse_viz.py`.  The
`line_height` parameter is accepted but, exactly as in the source, never
used: the loop body reads the module constant `LINE_HEIGHT` instead. -/
def get_word_positions (text : String) (canvas_width : ℤ)
    (font : String → ℤ) (horizontal_padding : ℤ)
    (vertical_padding_top : ℤ) (line_height : ℤ) : List WordPos :=
  let _ := line_height
  let text_start_x := Int.fdiv horizontal_padding 2
  let text_start_y := vertical_padding_top + 10
  let words := pySplitSpace text
  layoutLoop canvas_width font horizontal_padding text_start_y words
    ⟨"", text_start_x, 0⟩ 0

/-- `get_mouse_data(df_reading, trial_num)`: keep the rows whose
`mouse_tracking_data` is non-empty and return the `mouse_tracking_data`
of row `trial_num` of the result; `none` models the `IndexError` of
`.iloc` when there is no such row. -/
def get_mouse_data (df_reading : List TrialRow) (trial_num : ℕ) :
    Option (List PointerSample) :=
  ((df_reading.filter
      (fun r => decide (0 < r.mouse_tracking_data.length))).map
    (fun r => r.mouse_tracking_data))[trial_num]?

/-- The geometric test of the attribution loop: the point `(x, y)` lies
in the box expanded by the tolerances. -/
def inRegion (wp : WordPos) (x y x_tolerance y_tolerance : ℚ) : Prop :=
  ((wp.x_start : ℚ) - x_tolerance ≤ x ∧ x ≤ (wp.x_end : ℚ) + x_tolerance) ∧
  ((wp.y_position : ℚ) - y_tolerance ≤ y ∧ y ≤ (wp.y_position : ℚ) + y_tolerance)

instance (wp : WordPos) (x y xt yt : ℚ) : Decidable (inRegion wp x y xt yt) := by
  unfold inRegion
  infer_instance

/-- The inner `for wp in word_positions: ... break` scan: the first box
(in list order) whose expanded region contains the point. -/
def firstMatch (wps : List WordPos) (x y x_tolerance y_tolerance : ℚ) :
    Option WordPos :=
  wps.find? (fun wp => decide (inRegion wp x y x_tolerance y_tolerance))

/-- `word_durations[idx] += dt` on the duration dict (keys
`0 .. len(word_positions) - 1`, modelled positionally); `none` models
the `KeyError` on a missing key. -/
def addDur (durs : List ℚ) (idx : ℕ) (dt : ℚ) : Option (List ℚ) :=
  match durs[idx]? with
  | none => none
  | some d => some (durs.set idx (d + dt))

/-- The `for i in range(n - 1)` loop of `compute_word_durations`,
walking consecutive sample pairs and accumulating into the duration
dict; `none` models a `KeyError` escaping the loop. -/
def accumulate (wps : List WordPos) (x_tolerance y_tolerance : ℚ) :
    List PointerSample → List ℚ → Option (List ℚ)
  | [], durs => some durs
  | [_], durs => some durs
  | p :: q :: rest, durs =>
    let dt := q.timestamp - p.timestamp
    if dt ≤ 0 ∨ 1000 < dt then
      accumulate wps x_tolerance y_tolerance (q :: rest) durs
    else
      match firstMatch wps p.x p.y x_tolerance y_tolerance with
      | none => accumulate wps x_tolerance y_tolerance (q :: rest) durs
      | some wp =>
        match addDur durs wp.word_index dt with
        | none => none
        | some durs' => accumulate wps x_tolerance y_tolerance (q :: rest) durs'

/-- The record built for a box in the `n < 2` early-return branch:
`duration_ms` is the literal `0.0` and the coordinates are emitted
unrounded. -/
def zeroRecord (wp : WordPos) : DurationRecord :=
  { word_number := wp.word_index
    word := wp.word
    duration_ms := 0
    x_start := wp.x_start
    x_end := wp.x_end
    y_position := wp.y_position
    line_number := wp.line_index }

/-- The record built for a box in the final output loop:
`duration_ms` is `round(word_durations[word_index], 2)` (a `KeyError`
when the index is not a dict key), and the integer coordinates are
unchanged by `round(·, 1)`. -/
def outRecord (durs : List ℚ) (wp : WordPos) : Option DurationRecord :=
  match durs[wp.word_index]? with
  | none => none
  | some d =>
    some
      { word_number := wp.word_index
        word := wp.word
        duration_ms := pyRound d 2
        x_start := wp.x_start
        x_end := wp.x_end
        y_position := wp.y_position
        line_number := wp.line_index }

/-- Build the output rows in order, failing as soon as one row fails
(the Python loop raises at the first `KeyError`). -/
def optTraverse {α β : Type} (f : α → Option β) : List α → Option (List β)
  | [] => some []
  | a :: as =>
    match f a, optTraverse f as with
    | some b, some bs => some (b :: bs)
    | _, _ => none

/-- The body of `compute_word_durations` after the argument checks and
the `tracking = get_mouse_data(df_reading)` extraction: the duration
dict, the `n < 2` early return, the pair loop, and the output loop. -/
def compute_word_durations_core (tracking : List PointerSample)
    (word_positions : List WordPos) (x_tolerance y_tolerance : ℚ) :
    Except String (List DurationRecord) :=
  let word_durations := List.replicate word_positions.length (0 : ℚ)
  if tracking.length < 2 then
    Except.ok (word_positions.map zeroRecord)
  else
    match accumulate word_positions x_tolerance y_tolerance tracking
        word_durations with
    | none => Except.error "KeyError"
    | some durs =>
      match optTraverse (outRecord durs) word_positions with
      | none => Except.error "KeyError"
      | some data => Except.ok data

/-- `compute_word_durations(df_reading, canvas_width, text,
word_positions, x_tolerance, y_tolerance)` of `mouse_viz.py`.  Optional
arguments defaulting to `None` are modelled as `Option`s; the three
`ValueError`s are raised in source order, and the values of
`canvas_width` and `text` are never read afterwards. -/
def compute_word_durations (df_reading : List TrialRow)
    (canvas_width : Option ℤ) (text : Option String)
    (word_positions : Option (List WordPos))
    (x_tolerance y_tolerance : ℚ) : Except String (List DurationRecord) :=
  match canvas_width with
  | none => Except.error "canvas_width must be provided."
  | some _ =>
    match text with
    | none => Except.error "text must be provided."
    | some _ =>
      match word_positions with
      | none => Except.error "word_positions must be provided."
      | some wps =>
        match get_mouse_data df_reading 0 with
        | none => Except.error "IndexError"
        | some tracking =>
          compute_word_durations_core tracking wps x_tolerance y_tolerance

/-- A font measuring every character as 10 px wide (used by the concrete
scenarios). -/
def font10 : String → ℤ := fun s => 10 * (s.length : ℤ)

/-- A concrete pointer sample. -/
def sample0 : PointerSample := ⟨0, 0, 0⟩

/-- A concrete word box (the box of `"the"` in the concrete scenario). -/
def wpDemo : WordPos := ⟨"the", 0, 15, 45, 30, 0⟩

/-- A concrete one-row DataFrame whose single trial has exactly one
pointer sample. -/
def dfDemo : List TrialRow := [⟨[sample0]⟩]

/-! ### Helper lemmas about the layout loop -/

/-- The line index never decreases across one loop iteration. -/
theorem layoutStep_line_le (cw : ℤ) (f : String → ℤ) (hp : ℤ)
    (st : LineState) (w : String) :
    st.line_index ≤ (layoutStep cw f hp st w).line_index := by
  unfold layoutStep
  split_ifs <;> try simp_all
  all_goals split <;> simp

/-- The layout loop emits exactly one box per word. -/
theorem layoutLoop_length (cw : ℤ) (f : String → ℤ) (hp ty : ℤ) :
    ∀ (words : List String) (st : LineState) (idx : ℕ),
      (layoutLoop cw f hp ty words st idx).length = words.length := by
  intro words
  induction words with
  | nil => intro st idx; simp [layoutLoop]
  | cons w rest ih => intro st idx; simp [layoutLoop, ih]

/-- The emitted boxes carry the words in input order. -/
theorem layoutLoop_map_word (cw : ℤ) (f : String → ℤ) (hp ty : ℤ) :
    ∀ (words : List String) (st : LineState) (idx : ℕ),
      (layoutLoop cw f hp ty words st idx).map (fun wp => wp.word) = words := by
  intro words
  induction words with
  | nil => intro st idx; simp [layoutLoop]
  | cons w rest ih => intro st idx; simp [layoutLoop, ih]

/-- The emitted `word_index` fields count up from the entry value of
`len(word_positions)`. -/
theorem layoutLoop_map_word_index (cw : ℤ) (f : String → ℤ) (hp ty : ℤ) :
    ∀ (words : List String) (st : LineState) (idx : ℕ),
      (layoutLoop cw f hp ty words st idx).map (fun wp => wp.word_index)
        = List.range' idx words.length := by
  intro words
  induction words with
  | nil => intro st idx; simp [layoutLoop]
  | cons w rest ih =>
    intro st idx
    simp [layoutLoop, ih, List.range'_succ]

/-- Every emitted box ends where it starts plus its own measured
width. -/
theorem layoutLoop_x_end (cw : ℤ) (f : String → ℤ) (hp ty : ℤ) :
    ∀ (words : List String) (st : LineState) (idx : ℕ),
      ∀ wp ∈ layoutLoop cw f hp ty words st idx,
        wp.x_end = wp.x_start + f wp.word := by
  intro words
  induction words with
  | nil => intro st idx wp hwp; simp [layoutLoop] at hwp
  | cons w rest ih =>
    intro st idx wp hwp
    simp only [layoutLoop, List.mem_cons] at hwp
    rcases hwp with rfl | hwp
    · rfl
    · exact ih _ _ wp hwp

/-- Every emitted box satisfies the `y_position` formula of the source:
`text_start_y + line_index * LINE_HEIGHT` with the module constant
`LINE_HEIGHT`. -/
theorem layoutLoop_y (cw : ℤ) (f : String → ℤ) (hp ty : ℤ) :
    ∀ (words : List String) (st : LineState) (idx : ℕ),
      ∀ wp ∈ layoutLoop cw f hp ty words st idx,
        wp.y_position = ty + (wp.line_index : ℤ) * LINE_HEIGHT := by
  intro words
  induction words with
  | nil => intro st idx wp hwp; simp [layoutLoop] at hwp
  | cons w rest ih =>
    intro st idx wp hwp
    simp only [layoutLoop, List.mem_cons] at hwp
    rcases hwp with rfl | hwp
    · rfl
    · exact ih _ _ wp hwp

/-- Every emitted box has a line index at least the entry line index of
the loop state. -/
theorem layoutLoop_line_ge (cw : ℤ) (f : String → ℤ) (hp ty : ℤ) :
    ∀ (words : List String) (st : LineState) (idx : ℕ),
      ∀ wp ∈ layoutLoop cw f hp ty words st idx,
        st.line_index ≤ wp.line_index := by
  intro words
  induction words with
  | nil => intro st idx wp hwp; simp [layoutLoop] at hwp
  | cons w rest ih =>
    intro st idx wp hwp
    simp only [layoutLoop, List.mem_cons] at hwp
    rcases hwp with rfl | hwp
    · exact layoutStep_line_le cw f hp st w
    · exact le_trans (layoutStep_line_le cw f hp st w)
        (ih (layoutAdvance f (layoutStep cw f hp st w) w) (idx + 1) wp hwp)

/-- Successive emitted boxes have non-decreasing line indices. -/
theorem layoutLoop_chain (cw : ℤ) (f : String → ℤ) (hp ty : ℤ) :
    ∀ (words : List String) (st : LineState) (idx : ℕ),
      List.Chain' (fun a b => a.line_index ≤ b.line_index)
        (layoutLoop cw f hp ty words st idx) := by
  intro words
  induction words with
  | nil => intro st idx; simp [layoutLoop]
  | cons w rest ih =>
    intro st idx
    simp only [layoutLoop]
    rw [List.chain'_cons']
    refine ⟨?_, ih _ _⟩
    intro y hy
    exact layoutLoop_line_ge cw f hp ty rest
      (layoutAdvance f (layoutStep cw f hp st w) w) (idx + 1) y
      (List.mem_of_mem_head? hy)

/-! ### Helper lemmas about the dwell-time aggregator -/

/-- `firstMatch` returns a geometrically matching box, and it is the
first match in scan order: every earlier box fails the region test. -/
theorem firstMatch_spec (x y xt yt : ℚ) :
    ∀ (wps : List WordPos) (wp : WordPos),
      firstMatch wps x y xt yt = some wp →
      inRegion wp x y xt yt ∧
      ∃ i : ℕ, wps[i]? = some wp ∧
        ∀ (j : ℕ) (w : WordPos), j < i → wps[j]? = some w →
          ¬ inRegion w x y xt yt := by
  intro wps
  induction wps with
  | nil => intro wp h; simp [firstMatch] at h
  | cons a l ih =>
    intro wp h
    by_cases ha : inRegion a x y xt yt
    · rw [firstMatch, List.find?_cons_of_pos _ (by simpa using ha)] at h
      injection h with h
      subst h
      exact ⟨ha, 0, by simp, fun j w hj => absurd hj (Nat.not_lt_zero j)⟩
    · rw [firstMatch, List.find?_cons_of_neg _ (by simpa using ha)] at h
      obtain ⟨hin, i, hi, hfirst⟩ := ih wp h
      refine ⟨hin, i + 1, by simpa using hi, ?_⟩
      intro j w hj hw
      cases j with
      | zero =>
        simp only [List.getElem?_cons_zero, Option.some.injEq] at hw
        subst hw
        exact ha
      | succ k =>
        simp only [List.getElem?_cons_succ] at hw
        exact hfirst k w (Nat.lt_of_succ_lt_succ hj) hw

/-- A successful `+=` on the duration dict changes exactly the addressed
key, by exactly `dt`. -/
theorem addDur_spec (durs : List ℚ) (idx : ℕ) (dt : ℚ) (ds' : List ℚ)
    (h : addDur durs idx dt = some ds') :
    ds'[idx]? = (durs[idx]?).map (fun d => d + dt) ∧
    ∀ j, j ≠ idx → ds'[j]? = durs[j]? := by
  unfold addDur at h
  cases hd : durs[idx]? with
  | none => rw [hd] at h; exact absurd h (by simp)
  | some d =>
    rw [hd] at h
    injection h with h
    subst h
    have hlt : idx < durs.length := (List.getElem?_eq_some.mp hd).1
    constructor
    · simp [List.getElem?_set_eq_of_lt _ hlt, hd]
    · intro j hj
      exact List.getElem?_set_ne (fun e => hj e.symm)

/-- Row-wise characterisation of a successful output-loop traversal. -/
theorem optTraverse_map {α β γ : Type} (f : α → Option β) (g : β → γ)
    (hf : α → γ) (hfg : ∀ a b, f a = some b → g b = hf a) :
    ∀ (l : List α) (res : List β),
      optTraverse f l = some res → res.map g = l.map hf := by
  intro l
  induction l with
  | nil =>
    intro res hres
    simp only [optTraverse, Option.some.injEq] at hres
    subst hres
    simp
  | cons a as ih =>
    intro res hres
    simp only [optTraverse] at hres
    cases hfa : f a with
    | none => rw [hfa] at hres; exact absurd hres (by simp)
    | some b =>
      cases hrec : optTraverse f as with
      | none => rw [hfa, hrec] at hres; exact absurd hres (by simp)
      | some bs =>
        rw [hfa, hrec] at hres
        injection hres with hres
        subst hres
        simp [hfg a b hfa, ih bs hrec]

/-! ### Claim theorems -/

/-- C1: whenever `compute_word_durations` returns a table, that table
has exactly one Word Duration Record per Word Box — same length as
`word_positions` and in the same order (matching `word_index` and
`word` fields position by position) — for every `df_reading` input,
whatever the number of pointer samples. -/
theorem c1_one_record_per_box (df : List TrialRow) (cw : ℤ) (t : String)
    (wps : List WordPos) (xt yt : ℚ) (table : List DurationRecord)
    (h : compute_word_durations df (some cw) (some t) (some wps) xt yt
          = Except.ok table) :
    table.length = wps.length ∧
    table.map (fun r => (r.word_number, r.word))
      = wps.map (fun wp => (wp.word_index, wp.word)) := by
  have hmap : table.map (fun r => (r.word_number, r.word))
      = wps.map (fun wp => (wp.word_index, wp.word)) := by
    simp only [compute_word_durations] at h
    cases hg : get_mouse_data df 0 with
    | none => rw [hg] at h; exact absurd h (by simp)
    | some tracking =>
      rw [hg] at h
      simp only [compute_word_durations_core] at h
      by_cases hn : tracking.length < 2
      · rw [if_pos hn] at h
        injection h with h
        subst h
        rw [List.map_map]
        rfl
      · rw [if_neg hn] at h
        cases hacc : accumulate wps xt yt tracking
            (List.replicate wps.length 0) with
        | none => rw [hacc] at h; exact absurd h (by simp)
        | some durs =>
          rw [hacc] at h
          dsimp only at h
          cases htr : optTraverse (outRecord durs) wps with
          | none => rw [htr] at h; exact absurd h (by simp)
          | some data =>
            rw [htr] at h
            injection h with h
            subst h
            refine optTraverse_map (outRecord durs) _ _ ?_ wps data htr
            intro wp r hr
            unfold outRecord at hr
            cases hdr : durs[wp.word_index]? with
            | none => rw [hdr] at hr; exact absurd hr (by simp)
            | some d =>
              rw [hdr] at hr
              injection hr with hr
              subst hr
              rfl
  refine ⟨?_, hmap⟩
  have hlen := congrArg List.length hmap
  simpa using hlen

/-- Witness for C1 at a concrete call. -/
theorem c1_one_record_per_box_witness :
    ([zeroRecord wpDemo].length = [wpDemo].length) ∧
    ([zeroRecord wpDemo].map (fun r => (r.word_number, r.word))
       = [wpDemo].map (fun wp => (wp.word_index, wp.word))) :=
  c1_one_record_per_box dfDemo 200 "the" [wpDemo] 5 15
    [zeroRecord wpDemo] (by rfl)

/-- C2: `get_word_positions` returns exactly one Word Box per token of
the Python split `text.split(' ')` (empty tokens included), carrying the
tokens in order, with `word_index` contiguous from 0 in output order;
and when the font measures the empty string as 0 px, every empty-token
box is zero-width. -/
theorem c2_one_box_per_token (text : String) (cw : ℤ) (font : String → ℤ)
    (hp vpt lh : ℤ) :
    (get_word_positions text cw font hp vpt lh).map (fun wp => wp.word)
        = pySplitSpace text ∧
    (get_word_positions text cw font hp vpt lh).map (fun wp => wp.word_index)
        = List.range (pySplitSpace text).length ∧
    (font "" = 0 →
      ∀ wp ∈ get_word_positions text cw font hp vpt lh,
        wp.word = "" → wp.x_end = wp.x_start) := by
  refine ⟨?_, ?_, ?_⟩
  · simp only [get_word_positions]
    exact layoutLoop_map_word cw font hp (vpt + 10) (pySplitSpace text) _ 0
  · simp only [get_word_positions]
    rw [layoutLoop_map_word_index, List.range_eq_range']
  · intro hf wp hwp hword
    simp only [get_word_positions] at hwp
    have hx := layoutLoop_x_end cw font hp (vpt + 10) (pySplitSpace text)
      ⟨"", Int.fdiv hp 2, 0⟩ 0 wp hwp
    rw [hx, hword, hf, add_zero]

/-- Witness for C2: the empty token of `"a  b"` gets a zero-width box. -/
theorem c2_one_box_per_token_witness :
    (⟨"", 1, 35, 35, 30, 0⟩ : WordPos).x_end
      = (⟨"", 1, 35, 35, 30, 0⟩ : WordPos).x_start :=
  (c2_one_box_per_token "a  b" 200 font10 30 20 25).2.2 (by decide)
    ⟨"", 1, 35, 35, 30, 0⟩ (by decide) rfl

/-- C3: when the extracted pointer stream has fewer than 2 samples,
`compute_word_durations` returns (without error) one record per box
with `duration_ms = 0.0`; the result of the core computation is the
same for an empty stream and for any one-sample stream. -/
theorem c3_short_stream_zero (cw : ℤ) (t : String) (wps : List WordPos)
    (xt yt : ℚ) :
    (∀ (df : List TrialRow) (tr : List PointerSample),
        get_mouse_data df 0 = some tr → tr.length < 2 →
        compute_word_durations df (some cw) (some t) (some wps) xt yt
          = Except.ok (wps.map zeroRecord)) ∧
    (∀ s : PointerSample,
        compute_word_durations_core [] wps xt yt
          = compute_word_durations_core [s] wps xt yt) ∧
    (∀ r ∈ wps.map zeroRecord, r.duration_ms = 0) := by
  refine ⟨?_, ?_, ?_⟩
  · intro df tr hg hlen
    simp only [compute_word_durations, hg]
    simp only [compute_word_durations_core, if_pos hlen]
  · intro s
    simp [compute_word_durations_core]
  · intro r hr
    simp only [List.mem_map] at hr
    obtain ⟨wp, _, rfl⟩ := hr
    rfl

/-- Witness for C3 at a concrete one-sample stream. -/
theorem c3_short_stream_zero_witness :
    compute_word_durations dfDemo (some 1) (some "a") (some []) 5 15
      = Except.ok (([] : List WordPos).map zeroRecord) :=
  (c3_short_stream_zero 1 "a" [] 5 15).1 dfDemo [sample0] rfl (by decide)

/-- C4: a consecutive sample pair whose `dt` is `≤ 0` or `> 1000` is
skipped outright: the aggregation of the whole stream equals the
aggregation with that pair's first sample dropped, so the interval
contributes to no word and raises no error. -/
theorem c4_interval_filter (wps : List WordPos) (xt yt : ℚ)
    (p q : PointerSample) (rest : List PointerSample) (durs : List ℚ)
    (h : q.timestamp - p.timestamp ≤ 0 ∨ 1000 < q.timestamp - p.timestamp) :
    accumulate wps xt yt (p :: q :: rest) durs
      = accumulate wps xt yt (q :: rest) durs := by
  simp only [accumulate]
  rw [if_pos h]

/-- Witness for C4 at a concrete 2000 ms gap. -/
theorem c4_interval_filter_witness :
    accumulate [wpDemo] 5 15 [⟨20, 25, 0⟩, ⟨20, 25, 2000⟩] [0]
      = accumulate [wpDemo] 5 15 [⟨20, 25, 2000⟩] [0] :=
  c4_interval_filter [wpDemo] 5 15 ⟨20, 25, 0⟩ ⟨20, 25, 2000⟩ [] [0]
    (Or.inr (by norm_num))

/-- C5: a valid interval (`0 < dt ≤ 1000`) is attributed in full to at
most one record: if no box's tolerance-expanded region contains sample
`i`'s position the interval is dropped; otherwise the full `dt` is
added at exactly the key of the first matching box in scan order — that
box's region contains the point, every earlier box's region does not,
and the duration dict changes at no other key. -/
theorem c5_first_match_attribution (wps : List WordPos) (xt yt : ℚ)
    (p q : PointerSample) (rest : List PointerSample) (durs : List ℚ)
    (h1 : 0 < q.timestamp - p.timestamp)
    (h2 : q.timestamp - p.timestamp ≤ 1000) :
    (firstMatch wps p.x p.y xt yt = none →
       accumulate wps xt yt (p :: q :: rest) durs
         = accumulate wps xt yt (q :: rest) durs) ∧
    (∀ wp, firstMatch wps p.x p.y xt yt = some wp →
       accumulate wps xt yt (p :: q :: rest) durs
         = (addDur durs wp.word_index (q.timestamp - p.timestamp)).bind
             (accumulate wps xt yt (q :: rest)) ∧
       inRegion wp p.x p.y xt yt ∧
       (∃ i : ℕ, wps[i]? = some wp ∧
          ∀ (j : ℕ) (w : WordPos), j < i → wps[j]? = some w →
            ¬ inRegion w p.x p.y xt yt) ∧
       (∀ ds', addDur durs wp.word_index (q.timestamp - p.timestamp)
                  = some ds' →
          ds'[wp.word_index]?
              = (durs[wp.word_index]?).map
                  (fun d => d + (q.timestamp - p.timestamp)) ∧
          ∀ j : ℕ, j ≠ wp.word_index → ds'[j]? = durs[j]?)) := by
  have hno : ¬ (q.timestamp - p.timestamp ≤ 0 ∨
      1000 < q.timestamp - p.timestamp) := by
    push_neg
    exact ⟨h1, h2⟩
  constructor
  · intro hfm
    simp only [accumulate]
    rw [if_neg hno, hfm]
  · intro wp hfm
    refine ⟨?_, (firstMatch_spec _ _ _ _ wps wp hfm).1,
      (firstMatch_spec _ _ _ _ wps wp hfm).2, ?_⟩
    · simp only [accumulate]
      rw [if_neg hno, hfm]
      dsimp only
      cases had : addDur durs wp.word_index (q.timestamp - p.timestamp) with
      | none => rfl
      | some d => rfl
    · intro ds' hds
      exact addDur_spec durs wp.word_index _ ds' hds

/-- Witness for C5 at the concrete scenario of the spec (`dt = 500`
over the box of `"the"`). -/
theorem c5_first_match_attribution_witness :
    accumulate [wpDemo] 5 15 [⟨20, 25, 0⟩, ⟨20, 25, 500⟩] [0]
      = (addDur [0] wpDemo.word_index ((500 : ℚ) - (0 : ℚ))).bind
          (accumulate [wpDemo] 5 15 [⟨20, 25, 500⟩]) :=
  ((c5_first_match_attribution [wpDemo] 5 15 ⟨20, 25, 0⟩ ⟨20, 25, 500⟩ [] [0]
      (by norm_num) (by norm_num)).2 wpDemo
      (by norm_num [firstMatch, List.find?, wpDemo, inRegion])).1

/-- C6 counterexample: with `line_height = 50` the second word of
`"aa aa"` wraps to line 1 and gets `y_position = 55 = 20 + 10 + 1 * 25`,
not the claimed `20 + 10 + 1 * 50 = 80`: the source ignores its
`line_height` parameter and uses the module constant
`LINE_HEIGHT = 25`. -/
theorem c6_counterexample :
    (get_word_positions "aa aa" 10 font10 30 20 50).map
        (fun wp => ((wp.line_index : ℤ), wp.y_position))
      = [(0, 30), (1, 55)] ∧
    (55 : ℤ) ≠ 20 + 10 + 1 * 50 := by decide

/-- C6 (amended): `line_index` is non-decreasing across successive
Word Boxes in output order, and every box satisfies
`y_position = vertical_padding_top + 10 + line_index * LINE_HEIGHT`
with the module constant `LINE_HEIGHT = 25` — irrespective of the
`line_height` argument. -/
theorem c6_monotone_lines_const_height (text : String) (cw : ℤ)
    (font : String → ℤ) (hp vpt lh : ℤ) :
    List.Chain' (fun a b => a.line_index ≤ b.line_index)
      (get_word_positions text cw font hp vpt lh) ∧
    ∀ wp ∈ get_word_positions text cw font hp vpt lh,
      wp.y_position = vpt + 10 + (wp.line_index : ℤ) * LINE_HEIGHT := by
  constructor
  · simp only [get_word_positions]
    exact layoutLoop_chain cw font hp (vpt + 10) (pySplitSpace text) _ 0
  · intro wp hwp
    simp only [get_word_positions] at hwp
    have hy := layoutLoop_y cw font hp (vpt + 10) (pySplitSpace text)
      ⟨"", Int.fdiv hp 2, 0⟩ 0 wp hwp
    rw [hy]

/-- Witness for the amended C6 at the wrapped second word of
`"aa aa"`. -/
theorem c6_monotone_lines_const_height_witness :
    (⟨"aa", 1, 15, 35, 55, 1⟩ : WordPos).y_position
      = 20 + 10
        + (((⟨"aa", 1, 15, 35, 55, 1⟩ : WordPos).line_index : ℤ)
            * LINE_HEIGHT) :=
  (c6_monotone_lines_const_height "aa aa" 10 font10 30 20 50).2
    ⟨"aa", 1, 15, 35, 55, 1⟩ (by decide)

/-- C7: the concrete scenario — text `"the cat sat"`, canvas width 200,
every character 10 px wide, paddings 30/20, line height 25 — yields
exactly 3 boxes, all on line 0, `"the"` spanning 15–45 and `"sat"`
starting at 95. -/
theorem c7_concrete_layout :
    (get_word_positions "the cat sat" 200 font10 30 20 25).length = 3 ∧
    (∀ wp ∈ get_word_positions "the cat sat" 200 font10 30 20 25,
      wp.line_index = 0) ∧
    ((get_word_positions "the cat sat" 200 font10 30 20 25)[0]?).map
        (fun wp => (wp.word, wp.x_start, wp.x_end))
      = some ("the", 15, 45) ∧
    ((get_word_positions "the cat sat" 200 font10 30 20 25)[2]?).map
        (fun wp => (wp.word, wp.x_start))
      = some ("sat", 95) := by decide

/-- Witness for C7 at the first box. -/
theorem c7_concrete_layout_witness :
    (⟨"the", 0, 15, 45, 30, 0⟩ : WordPos).line_index = 0 :=
  c7_concrete_layout.2.1 ⟨"the", 0, 15, 45, 30, 0⟩ (by decide)

/-- Counterexample to C8 as stated: with `canvas_width = 0`, `text`
the empty string and `word_positions` the empty list — all three
"empty" but provided — no invalid-argument error is raised: the call
returns an (empty) table. -/
theorem c8_counterexample :
    compute_word_durations dfDemo (some 0) (some "") (some []) 5 15
      = Except.ok [] := by rfl

/-- C8 (amended): `compute_word_durations` fails fast, with the
matching invalid-argument message and independently of every other
input, when `canvas_width`, `text` or `word_positions` is missing
(`None`); when all three are provided — even if empty — the
invalid-argument errors cannot occur (any error is the sample
extraction's `IndexError` or the duration dict's `KeyError`). -/
theorem c8_missing_arg_validation (df : List TrialRow) (cw : ℤ)
    (t : String) (wps : List WordPos) (xt yt : ℚ) :
    (∀ (t? : Option String) (wps? : Option (List WordPos)),
        compute_word_durations df none t? wps? xt yt
          = Except.error "canvas_width must be provided.") ∧
    (∀ wps? : Option (List WordPos),
        compute_word_durations df (some cw) none wps? xt yt
          = Except.error "text must be provided.") ∧
    compute_word_durations df (some cw) (some t) none xt yt
      = Except.error "word_positions must be provided." ∧
    (∀ e, compute_word_durations df (some cw) (some t) (some wps) xt yt
            = Except.error e →
       e = "IndexError" ∨ e = "KeyError") := by
  refine ⟨fun _ _ => rfl, fun _ => rfl, rfl, ?_⟩
  intro e he
  simp only [compute_word_durations] at he
  cases hg : get_mouse_data df 0 with
  | none =>
    rw [hg] at he
    injection he with he
    exact Or.inl he.symm
  | some tracking =>
    rw [hg] at he
    simp only [compute_word_durations_core] at he
    by_cases hn : tracking.length < 2
    · rw [if_pos hn] at he
      exact absurd he (by simp)
    · rw [if_neg hn] at he
      cases hacc : accumulate wps xt yt tracking
          (List.replicate wps.length 0) with
      | none =>
        rw [hacc] at he
        injection he with he
        exact Or.inr he.symm
      | some durs =>
        rw [hacc] at he
        dsimp only at he
        cases htr : optTraverse (outRecord durs) wps with
        | none =>
          rw [htr] at he
          injection he with he
          exact Or.inr he.symm
        | some data =>
          rw [htr] at he
          exact absurd he (by simp)

/-- Witness for C8 at a concrete failing extraction. -/
theorem c8_missing_arg_validation_witness :
    ("IndexError" = "IndexError" ∨ "IndexError" = "KeyError") :=
  (c8_missing_arg_validation ([] : List TrialRow) 0 "" [] 5 15).2.2.2
    "IndexError" rfl

/-- C9: two calls differing only in the (provided) values of
`canvas_width` and `text` return identical tables: those arguments are
checked for presence but their values never influence the output. -/
theorem c9_canvas_text_values_unused (df : List TrialRow) (cw1 cw2 : ℤ)
    (t1 t2 : String) (wps : Option (List WordPos)) (xt yt : ℚ) :
    compute_word_durations df (some cw1) (some t1) wps xt yt
      = compute_word_durations df (some cw2) (some t2) wps xt yt := rfl

/-- C10: `compute_word_durations` always draws its samples from
`get_mouse_data(df_reading)` at the default `trial_num = 0`, i.e. from
the first row whose `mouse_tracking_data` is non-empty, independently
of which trial's `word_positions` is passed in. -/
theorem c10_trial_zero_samples (df : List TrialRow) (cw : ℤ) (t : String)
    (wps : List WordPos) (xt yt : ℚ) :
    (compute_word_durations df (some cw) (some t) (some wps) xt yt
      = match get_mouse_data df 0 with
        | none => Except.error "IndexError"
        | some tracking =>
            compute_word_durations_core tracking wps xt yt) ∧
    get_mouse_data df 0
      = ((df.filter
            (fun r => decide (0 < r.mouse_tracking_data.length))).map
          (fun r => r.mouse_tracking_data)).head? := by
  constructor
  · rfl
  · unfold get_mouse_data
    cases (df.filter
        (fun r => decide (0 < r.mouse_tracking_data.length))).map
        (fun r => r.mouse_tracking_data) with
    | nil => simp
    | cons a l => simp

end MouseViz
